import Mathlib

/-
Verification development for the user-management CRUD demo with notification
fan-out (React Native client `src/App.tsx` plus the serverless handlers in
`src/functions/src/index.ts`).

The client logic is shallowly embedded as pure Lean functions:
* strings are Lean `String` (lists of characters); the JavaScript string
  operations used by the code (`trim`, the two regular expressions, `parseInt`)
  are modelled character by character over the ASCII range actually used by
  the app;
* the stateful React component is modelled as an explicit `AppState` record,
  and each handler (`addUser`, `updateUser`, `deleteUser`) is a pure function
  from an environment (availability flags and external-call outcomes) and a
  state to a new state paired with a trace of observable `Event`s;
* fallible external calls (the document-store write, the multicast push) are
  modelled by boolean outcome flags or `Except` results supplied in the
  environment;
* the notification service never lets an exception escape (every remote call
  in it is wrapped in try/catch), which the embedding reflects by making the
  notification functions total functions returning only event traces.
-/

namespace CrudDemo

/-! ## JavaScript string primitives (App.tsx uses `trim`, two regexes, `parseInt`) -/

/-- ASCII whitespace, covering the characters JavaScript `trim` and the regex
class `\s` strip in the ASCII range (space, tab, line feed, carriage return,
vertical tab, form feed). -/
def isWsChar (c : Char) : Bool :=
  c == ' ' || c == '\t' || c == '\n' || c == '\r' || c == '\x0b' || c == '\x0c'

/-- JavaScript `String.prototype.trim` on a character list: drop whitespace
from both ends. -/
def trimL (l : List Char) : List Char :=
  ((l.dropWhile isWsChar).reverse.dropWhile isWsChar).reverse

/-- JavaScript trim on `String`. -/
def jsTrim (s : String) : String :=
  ⟨trimL s.data⟩

def isAsciiLetter (c : Char) : Bool :=
  ('a' ≤ c && c ≤ 'z') || ('A' ≤ c && c ≤ 'Z')

def isDigitChar (c : Char) : Bool :=
  '0' ≤ c && c ≤ '9'

def isHexDigitChar (c : Char) : Bool :=
  isDigitChar c || ('a' ≤ c && c ≤ 'f') || ('A' ≤ c && c ≤ 'F')

def digitVal (c : Char) : Nat :=
  if isDigitChar c then c.toNat - '0'.toNat
  else if 'a' ≤ c && c ≤ 'f' then c.toNat - 'a'.toNat + 10
  else c.toNat - 'A'.toNat + 10

def digitsVal (base : Nat) (ds : List Char) : Nat :=
  ds.foldl (fun acc c => acc * base + digitVal c) 0

/-- The unsigned part of JavaScript `parseInt(s)` with no radix argument:
a `0x`/`0X` prefix switches to hexadecimal, otherwise the longest leading
run of decimal digits is taken; no digits means NaN (`none`).  Trailing
characters after the digit run are ignored, exactly as in JavaScript. -/
def parseUnsignedJs (l : List Char) : Option Nat :=
  match l with
  | '0' :: 'x' :: r =>
    if (r.takeWhile isHexDigitChar).isEmpty then none
    else some (digitsVal 16 (r.takeWhile isHexDigitChar))
  | '0' :: 'X' :: r =>
    if (r.takeWhile isHexDigitChar).isEmpty then none
    else some (digitsVal 16 (r.takeWhile isHexDigitChar))
  | _ =>
    if (l.takeWhile isDigitChar).isEmpty then none
    else some (digitsVal 10 (l.takeWhile isDigitChar))

/-- JavaScript `parseInt(s)` with no radix: skip leading whitespace, read an
optional sign, then the unsigned numeral; `none` models NaN.  The app only
compares the result with the small bounds 1 and 120, where JavaScript number
arithmetic is exact, so `Int` is a faithful carrier. -/
def jsParseInt (l : List Char) : Option Int :=
  match l.dropWhile isWsChar with
  | '-' :: r => (parseUnsignedJs r).map (fun n => -(n : Int))
  | '+' :: r => (parseUnsignedJs r).map (fun n => (n : Int))
  | r => (parseUnsignedJs r).map (fun n => (n : Int))

/-! ## Validation (App.tsx lines 500-536) -/

def nameCharOk (c : Char) : Bool :=
  isAsciiLetter c || isWsChar c

/-- `validateName` (App.tsx lines 500-506): error string, or `none` when the
name is accepted.  The regex `^[a-zA-Z\s]+$` on the nonempty trimmed name is
equivalent to every character being a letter or whitespace. -/
def validateNameL (l : List Char) : Option String :=
  if (trimL l).isEmpty = true then some "Name is required"
  else if (trimL l).length < 2 then some "Name must be at least 2 characters"
  else if (trimL l).length > 50 then some "Name must be less than 50 characters"
  else if (trimL l).all nameCharOk = false then some "Name can only contain letters and spaces"
  else none

def emailCharOk (c : Char) : Bool :=
  !(isWsChar c) && c != '@'

/-- Split a character list at its first `@`, returning the part before and
the part after. -/
def splitAtFirstAt : List Char → Option (List Char × List Char)
  | [] => none
  | c :: r =>
    if c == '@' then some ([], r)
    else (splitAtFirstAt r).map (fun p => (c :: p.1, p.2))

/-- Matcher for the email regex `^[^\s@]+@[^\s@]+\.[^\s@]+$` (App.tsx line
510).  A match is a decomposition `a ++ "@" ++ rest` where `a` is nonempty
with no whitespace or `@`, and `rest` is `b ++ "." ++ c` with `b`, `c`
nonempty and free of whitespace and `@`.  Since `a` may not contain `@`, the
`@` of a match is the first one, and the dot may sit anywhere strictly inside
`rest`, hence the `contains` test on `rest` without its first and last
characters. -/
def emailRegexTest (l : List Char) : Bool :=
  match splitAtFirstAt l with
  | none => false
  | some (a, rest) =>
    !a.isEmpty && a.all emailCharOk && !rest.isEmpty && rest.all emailCharOk &&
      ((rest.drop 1).dropLast.contains '.')

/-- `validateEmail` (App.tsx lines 508-513). -/
def validateEmailL (l : List Char) : Option String :=
  if (trimL l).isEmpty = true then some "Email is required"
  else if emailRegexTest (trimL l) = false then some "Please enter a valid email address"
  else none

/-- `validateAge` (App.tsx lines 515-521): required, then `parseInt` of the
trimmed text, NaN check, then the range check `1 ≤ n ≤ 120`. -/
def validateAgeL (l : List Char) : Option String :=
  if (trimL l).isEmpty = true then some "Age is required"
  else
    match jsParseInt (trimL l) with
    | none => some "Age must be a number"
    | some n => if n < 1 ∨ n > 120 then some "Age must be between 1 and 120" else none

def validateName (s : String) : Option String := validateNameL s.data

def validateEmail (s : String) : Option String := validateEmailL s.data

def validateAge (s : String) : Option String := validateAgeL s.data

/-- The per-field validation error set (`ValidationErrors` in App.tsx). -/
structure VErrors where
  name : Option String
  email : Option String
  age : Option String
deriving DecidableEq, Repr

def VErrors.empty : VErrors := ⟨none, none, none⟩

/-- `Object.keys(newErrors).length === 0`: a key is present exactly when the
field validator produced an error, so the error object is empty exactly when
all three fields are `none`. -/
def VErrors.isEmpty (e : VErrors) : Bool :=
  e.name == none && e.email == none && e.age == none

/-- The error set recomputed by `validateForm` (App.tsx lines 524-536). -/
def computeErrors (n e a : String) : VErrors :=
  ⟨validateName n, validateEmail e, validateAge a⟩

/-- `validateForm`: returns the stored error set together with the boolean
result (App.tsx lines 524-536). -/
def validateForm (n e a : String) : VErrors × Bool :=
  (computeErrors n e a, (computeErrors n e a).isEmpty)

/-! ## Claim C1 -/

/-- Modelled from the spec: claim C1 calls an input string numeric when its
trimmed text is a decimal integer numeral, that is an optional sign followed
by one or more decimal digits and nothing else.  This is the plain reading of
the claim, written independently of the code, to be compared with what
`validateAge` actually accepts. -/
def specNumericString (s : String) : Bool :=
  match trimL s.data with
  | '-' :: r => !r.isEmpty && r.all isDigitChar
  | '+' :: r => !r.isEmpty && r.all isDigitChar
  | t => !t.isEmpty && t.all isDigitChar

/-- Claim C1 counterexample: the string `12abc` is not numeric, yet
`validateAge` accepts it (returns no error), because JavaScript `parseInt`
reads the numeric prefix `12` and ignores the trailing letters.  This
refutes the claim that `validateAge` fails on every non-numeric input. -/
theorem validateAge_nonNumeric_cex :
    specNumericString "12abc" = false ∧ validateAge "12abc" = none := by
  constructor
  · rfl
  · rfl

/-- Claim C1 (amended): `validateAge s` fails exactly when the trimmed input
is empty, or `parseInt` of the trimmed input yields NaN, or the value parsed
from its leading numeral lies outside `[1, 120]`.  Because `parseInt` accepts
a numeric prefix and ignores trailing characters, a non-numeric string with
an in-range numeric prefix passes. -/
theorem validateAge_fail_iff (s : String) :
    (validateAge s).isSome = true ↔
      (trimL s.data = [] ∨ jsParseInt (trimL s.data) = none ∨
        ∃ n, jsParseInt (trimL s.data) = some n ∧ (n < 1 ∨ n > 120)) := by
  unfold validateAge validateAgeL
  cases ht : trimL s.data with
  | nil => simp
  | cons c r =>
    cases hp : jsParseInt (c :: r) with
    | none => simp [hp]
    | some n =>
      by_cases hr : n < 1 ∨ n > 120
      · simp [hp, hr]
      · simp [hp, hr]

/-! ## Claim C9 -/

/-- Claim C9: `validateForm` returns `true` exactly when all three field
validators succeed independently on the current field values, and the error
set it stores for the UI is exactly the freshly recomputed per-field result
of the three validators. -/
theorem validateForm_spec (n e a : String) :
    ((validateForm n e a).2 = true ↔
      (validateName n = none ∧ validateEmail e = none ∧ validateAge a = none)) ∧
    (validateForm n e a).1 = ⟨validateName n, validateEmail e, validateAge a⟩ := by
  refine ⟨?_, rfl⟩
  simp [validateForm, computeErrors, VErrors.isEmpty, Bool.and_eq_true, and_assoc]

/-! ## In-app notification feed (App.tsx lines 79-84, 478-497) -/

/-- Severity tag of a notification (the union of the string literals
success, info, warning). -/
inductive Sev where
  | success
  | info
  | warning
deriving DecidableEq, Repr

/-- `InAppNotification` (App.tsx lines 79-84): identifier, message, severity
tag, creation timestamp. -/
structure InAppNotification where
  id : String
  message : String
  type : Sev
  timestamp : Nat
deriving DecidableEq, Repr

/-- The state update performed by `addInAppNotification` (App.tsx line 486):
`[notification, ...prev.slice(0, 4)]` prepends the new entry and keeps at most
four previous entries. -/
def pushFeed (feed : List InAppNotification) (n : InAppNotification) :
    List InAppNotification :=
  n :: feed.take 4

/-- The state update performed by `removeInAppNotification` (App.tsx lines
495-497): `prev.filter(n => n.id !== id)`. -/
def dismissFeed (feed : List InAppNotification) (i : String) :
    List InAppNotification :=
  feed.filter (fun n => n.id != i)

/-- A user-visible operation on the feed: a push (from
`addInAppNotification`) or a dismissal (from `removeInAppNotification` or the
5-second timer, both of which run the same filter). -/
inductive FeedOp where
  | push (n : InAppNotification)
  | dismiss (i : String)

def feedStep (feed : List InAppNotification) : FeedOp → List InAppNotification
  | .push n => pushFeed feed n
  | .dismiss i => dismissFeed feed i

/-- The feed obtained by running a sequence of operations from the initial
empty feed (`useState<InAppNotification[]>([])`, App.tsx line 412). -/
def runFeed (ops : List FeedOp) : List InAppNotification :=
  ops.foldl feedStep []

lemma feedStep_length_le (feed : List InAppNotification) (op : FeedOp)
    (h : feed.length ≤ 5) : (feedStep feed op).length ≤ 5 := by
  cases op with
  | push n =>
    simp only [feedStep, pushFeed, List.length_cons, List.length_take]
    omega
  | dismiss i =>
    exact le_trans (List.length_filter_le _ _) h

lemma runFeed_aux (ops : List FeedOp) :
    ∀ feed : List InAppNotification, feed.length ≤ 5 →
      (ops.foldl feedStep feed).length ≤ 5 := by
  induction ops with
  | nil => intro feed h; simpa using h
  | cons op rest ih =>
    intro feed h
    simpa only [List.foldl_cons] using ih _ (feedStep_length_le feed op h)

/-! ## Claim C2 -/

/-- Claim C2: however pushes and dismissals are interleaved, the in-app feed
never holds more than 5 entries; moreover each push prepends the new entry
and keeps only the four most recent previous ones, dropping the oldest. -/
theorem feed_bounded :
    (∀ ops : List FeedOp, (runFeed ops).length ≤ 5) ∧
    (∀ (ops : List FeedOp) (n : InAppNotification),
      runFeed (ops ++ [FeedOp.push n]) = n :: (runFeed ops).take 4) := by
  constructor
  · intro ops
    exact runFeed_aux ops [] (by simp)
  · intro ops n
    simp [runFeed, List.foldl_append, feedStep, pushFeed]

/-! ## Claim C10 -/

/-- Claim C10: dismissing `i` removes exactly the entries whose identifier is
`i`; the survivors keep their relative order (the result is a sublist of the
feed); when no entry carries `i` the dismissal is a no-op; and dismissing the
same identifier twice equals dismissing it once. -/
theorem dismissFeed_spec (feed : List InAppNotification) (i : String) :
    (∀ n, n ∈ dismissFeed feed i ↔ (n ∈ feed ∧ n.id ≠ i)) ∧
    (dismissFeed feed i).Sublist feed ∧
    ((∀ n ∈ feed, n.id ≠ i) → dismissFeed feed i = feed) ∧
    dismissFeed (dismissFeed feed i) i = dismissFeed feed i := by
  refine ⟨?_, List.filter_sublist feed, ?_, ?_⟩
  · intro n
    simp [dismissFeed, List.mem_filter]
  · intro h
    apply List.filter_eq_self.mpr
    intro n hn
    simpa using h n hn
  · apply List.filter_eq_self.mpr
    intro n hn
    simp only [dismissFeed] at hn
    exact (List.mem_filter.mp hn).2

/-- Witness for claim C10: applying the theorem to a concrete one-element
feed whose entry carries a different identifier, the dismissal is a no-op. -/
theorem dismissFeed_spec_witness :
    dismissFeed [⟨"a", "m", Sev.info, 0⟩] "b" = [⟨"a", "m", Sev.info, 0⟩] := by
  exact (dismissFeed_spec [⟨"a", "m", Sev.info, 0⟩] "b").2.2.1 (by decide)

/-! ## Data model: user records and CRUD payloads -/

/-- `createdAt`: a server-assigned timestamp when the store is available,
otherwise the client clock (`db ? serverTimestamp() : new Date()`, App.tsx
line 560). -/
inductive Timestamp where
  | server
  | client (t : Nat)
deriving DecidableEq, Repr

/-- `User` (App.tsx lines 64-71).  The optional `fcmToken` is always written
from the component state, which starts as the empty string, so it is carried
as a plain string here. -/
structure User where
  id : String
  name : String
  email : String
  age : String
  createdAt : Timestamp
  fcmToken : String
deriving DecidableEq, Repr

/-- CRUD operation tag (the union of the string literals CREATE, UPDATE,
DELETE). -/
inductive COp where
  | create
  | update
  | delete
deriving DecidableEq, Repr

/-- The loosely-shaped `userData` object handed to the notification paths.
Each call site fills a different subset of fields; absent fields are `none`
and render as the text `undefined` when interpolated into a message, as in
JavaScript. -/
structure CrudPayload where
  name : Option String
  email : Option String
  age : Option String
  id : Option String
  fcmToken : Option String
  createdAt : Option Timestamp
  oldData : Option User
  deletedUser : Option User
deriving DecidableEq, Repr

/-- The payload with every field absent. -/
def CrudPayload.base : CrudPayload :=
  ⟨none, none, none, none, none, none, none, none⟩

/-- JavaScript string interpolation of a possibly `undefined` field. -/
def jsField (o : Option String) : String :=
  o.getD "undefined"

/-- The fields of the update object (`updatedData`, App.tsx lines 644-649). -/
structure UpdatedData where
  name : String
  email : String
  age : String
  fcmToken : String
deriving DecidableEq, Repr

/-! ## Observable events

The stateful handlers are embedded as pure functions that, besides the new
`AppState`, emit an ordered trace of the externally observable calls they
make.  Store events are emitted only for mutations that return successfully;
a throwing call emits nothing and diverts control to the catch path. -/

inductive Event where
  | storeAdd (u : User)
  | storeUpdate (id : String) (d : UpdatedData)
  | storeDelete (id : String)
  | notifyInvoked (op : COp) (p : CrudPayload) (isLocal : Bool)
  | localAttempt (title body : String)
  | fallback (title body : String)
  | pushAttempt (op : COp) (p : CrudPayload)
  | pushCall (op : COp) (p : CrudPayload)
  | emailAttempt (op : COp) (p : CrudPayload)
  | emailCall (op : COp) (p : CrudPayload)
  | uiUpdate (users : List User)
  | banner (msg : String) (sev : Sev)
deriving DecidableEq, Repr

/-! ## Notification service (App.tsx lines 87-394)

The service state is the pair of booleans consulted by the notification
paths.  The environment flags below model the module-level availability of
the dynamically required SDKs and the possible failure of the platform
display call.  Every failure inside the service is caught and logged
(App.tsx lines 262-266, 309-311, 332-334), so each function here is total
and returns only its event trace: no notification failure can escape into
the calling CRUD handler. -/

structure SvcState where
  messagingAvailable : Bool
  permissionsGranted : Bool
deriving DecidableEq, Repr

/-- Environment of one handler invocation: SDK availability, the service
state, external-call outcomes, and the fresh values minted during the call
(store document id, local unique ids, clock). -/
structure Env where
  db : Bool
  functionsAvailable : Bool
  svc : SvcState
  displayFails : Bool
  writeOk : Bool
  docId : String
  localId : String
  noteId : String
  now : Nat
deriving DecidableEq, Repr

/-- Notification titles per operation (App.tsx line 364). -/
def sysTitle : COp → String
  | .create => "User Added"
  | .update => "User Updated"
  | .delete => "User Deleted"

/-- The `system` message per operation (App.tsx lines 344, 350, 356),
interpolating `userData.name` as JavaScript does (absent field prints as
`undefined`). -/
def sysMsg (op : COp) (p : CrudPayload) : String :=
  match op with
  | .create => "New user \"" ++ jsField p.name ++ "\" added to the system"
  | .update => "User \"" ++ jsField p.name ++ "\" information has been updated"
  | .delete => "User \"" ++ jsField p.name ++ "\" has been removed from the system"

/-- `showFallbackNotification` (App.tsx lines 270-288): a toast attempt and
an alert attempt, each independently guarded; modelled as one fallback
event. -/
def showFallbackNotification (title body : String) : List Event :=
  [Event.fallback title body]

/-- `showSystemNotification` (App.tsx lines 211-267): the Local Notification
Gateway entry point.  It is always invoked (the leading event); without
permission, or when the platform display call throws, it falls back. -/
def showSystemNotification (env : Env) (title body : String) : List Event :=
  Event.localAttempt title body ::
    (if env.svc.permissionsGranted = false then showFallbackNotification title body
     else if env.displayFails = true then showFallbackNotification title body
     else [])

/-- `sendPushNotification` (App.tsx lines 291-312): skips unless the
functions SDK is present and messaging is available; the remote call is
wrapped in try/catch, so a failing call emits nothing further and never
rethrows. -/
def sendPushNotification (env : Env) (op : COp) (p : CrudPayload) : List Event :=
  Event.pushAttempt op p ::
    (if env.functionsAvailable && env.svc.messagingAvailable then [Event.pushCall op p]
     else [])

/-- `sendEmailNotification` (App.tsx lines 315-335): skips only when the
functions SDK is absent; likewise wrapped in try/catch. -/
def sendEmailNotification (env : Env) (op : COp) (p : CrudPayload) : List Event :=
  Event.emailAttempt op p ::
    (if env.functionsAvailable then [Event.emailCall op p]
     else [])

/-- `notifyCRUDOperation` (App.tsx lines 338-374): always shows the system
notification; dispatches the push and email remote calls only when the
action is not local-only and messaging is marked available. -/
def notifyCRUDOperation (env : Env) (op : COp) (p : CrudPayload) (isLocal : Bool) :
    List Event :=
  Event.notifyInvoked op p isLocal ::
    (showSystemNotification env (sysTitle op) (sysMsg op p) ++
      (if !isLocal && env.svc.messagingAvailable then
        sendPushNotification env op p ++ sendEmailNotification env op p
      else []))

/-- Exhaustive description of the events a `notifyCRUDOperation` call can
emit, used to settle membership questions in the handler traces. -/
lemma mem_notifyCRUDOperation_iff (env : Env) (op : COp) (p : CrudPayload)
    (loc : Bool) (e : Event) :
    e ∈ notifyCRUDOperation env op p loc ↔
      (e = Event.notifyInvoked op p loc ∨
       e = Event.localAttempt (sysTitle op) (sysMsg op p) ∨
       ((env.svc.permissionsGranted = false ∨ env.displayFails = true) ∧
         e = Event.fallback (sysTitle op) (sysMsg op p)) ∨
       ((loc = false ∧ env.svc.messagingAvailable = true) ∧
         (e = Event.pushAttempt op p ∨
          (env.functionsAvailable = true ∧ e = Event.pushCall op p) ∨
          e = Event.emailAttempt op p ∨
          (env.functionsAvailable = true ∧ e = Event.emailCall op p)))) := by
  cases hp : env.svc.permissionsGranted <;>
    cases hd : env.displayFails <;>
      cases hm : env.svc.messagingAvailable <;>
        cases hf : env.functionsAvailable <;>
          cases loc <;>
            simp [notifyCRUDOperation, showSystemNotification,
              showFallbackNotification, sendPushNotification,
              sendEmailNotification, hp, hd, hm, hf]

/-! ## Claim C7 -/

/-- Claim C7: for every operation tag and payload, `notifyCRUDOperation`
always invokes the Local Notification Gateway (the system-notification
path), and it invokes both the push dispatcher and the email dispatcher
exactly when the action is not local-only and the messaging transport is
marked available. -/
theorem notifyCRUDOperation_spec (env : Env) (op : COp) (p : CrudPayload)
    (isLocal : Bool) :
    (∃ t b, Event.localAttempt t b ∈ notifyCRUDOperation env op p isLocal) ∧
    ((Event.pushAttempt op p ∈ notifyCRUDOperation env op p isLocal ∧
      Event.emailAttempt op p ∈ notifyCRUDOperation env op p isLocal) ↔
      (isLocal = false ∧ env.svc.messagingAvailable = true)) := by
  constructor
  · exact ⟨sysTitle op, sysMsg op p, by simp [mem_notifyCRUDOperation_iff]⟩
  · simp [mem_notifyCRUDOperation_iff]

/-! ## CRUD orchestrator (App.tsx lines 403-731)

The component state relevant to the claims: the visible user list, the three
form fields, the edit target, the validation error set, the in-app feed, the
submitting flag and the device messaging token.  Fields with no bearing on
any claim (the loading flag, the cached status object, the store handle) are
not carried. -/

structure AppState where
  users : List User
  name : String
  email : String
  age : String
  editingUser : Option User
  errors : VErrors
  feed : List InAppNotification
  submitting : Bool
  fcmToken : String
deriving DecidableEq, Repr

/-- `createdAt` chosen by `addUser` (App.tsx line 560). -/
def tsOf (env : Env) : Timestamp :=
  if env.db then Timestamp.server else Timestamp.client env.now

/-- The record constructed by a successful `addUser` (App.tsx lines 555-580):
trimmed form fields, the current device token, the chosen timestamp, and the
store-assigned id (remote path) or a locally generated id. -/
def newUserOf (env : Env) (s : AppState) : User :=
  ⟨if env.db then env.docId else env.localId,
   jsTrim s.name, jsTrim s.email, jsTrim s.age, tsOf env, s.fcmToken⟩

/-- Payload of the remote-path CREATE notification (App.tsx line 574):
`{...userData, id: docRef.id}`. -/
def addPayloadRemote (env : Env) (s : AppState) : CrudPayload :=
  { CrudPayload.base with
      name := some (jsTrim s.name), email := some (jsTrim s.email),
      age := some (jsTrim s.age), fcmToken := some s.fcmToken,
      createdAt := some (tsOf env), id := some env.docId }

/-- Payload of the local-path CREATE notification (App.tsx line 583): the
freshly built user record itself. -/
def payloadOfUser (u : User) : CrudPayload :=
  { CrudPayload.base with
      name := some u.name, email := some u.email, age := some u.age,
      fcmToken := some u.fcmToken, createdAt := some u.createdAt,
      id := some u.id }

def bannerAddMsg (nm : String) : String :=
  "📢 Notification: New user \"" ++ nm ++ "\" added to the system"

def addFailBanner : String := "❌ Failed to add user. Please try again."

def validationBanner : String := "Please fix the validation errors"

/-- `addUser` (App.tsx lines 546-603).  Paths: validation failure (fallback
notification plus warning banner, submitting untouched); remote write that
throws (error fallback plus warning banner, submitting cleared); successful
remote or local write (store mutation when remote, CREATE notification, list
prepend, form and error reset, info banner only when the list was already
non-empty, submitting cleared by the `finally`). -/
def addUser (env : Env) (s : AppState) : AppState × List Event :=
  if (computeErrors s.name s.email s.age).isEmpty = true then
    if env.db = true then
      if env.writeOk = true then
        ({ s with
            users := newUserOf env s :: s.users
            name := ""
            email := ""
            age := ""
            errors := VErrors.empty
            feed := if s.users.length > 0 then
                pushFeed s.feed ⟨env.noteId, bannerAddMsg (jsTrim s.name), Sev.info, env.now⟩
              else s.feed
            submitting := false },
         Event.storeAdd (newUserOf env s) ::
           notifyCRUDOperation env COp.create (addPayloadRemote env s) false ++
           Event.uiUpdate (newUserOf env s :: s.users) ::
           (if s.users.length > 0 then [Event.banner (bannerAddMsg (jsTrim s.name)) Sev.info]
            else []))
      else
        ({ s with
            errors := computeErrors s.name s.email s.age
            feed := pushFeed s.feed ⟨env.noteId, addFailBanner, Sev.warning, env.now⟩
            submitting := false },
         [Event.fallback "Error" "Failed to add user. Please try again.",
          Event.banner addFailBanner Sev.warning])
    else
      ({ s with
          users := newUserOf env s :: s.users
          name := ""
          email := ""
          age := ""
          errors := VErrors.empty
          feed := if s.users.length > 0 then
              pushFeed s.feed ⟨env.noteId, bannerAddMsg (jsTrim s.name), Sev.info, env.now⟩
            else s.feed
          submitting := false },
       notifyCRUDOperation env COp.create (payloadOfUser (newUserOf env s)) true ++
         Event.uiUpdate (newUserOf env s :: s.users) ::
         (if s.users.length > 0 then [Event.banner (bannerAddMsg (jsTrim s.name)) Sev.info]
          else []))
  else
    ({ s with
        errors := computeErrors s.name s.email s.age
        feed := pushFeed s.feed ⟨env.noteId, validationBanner, Sev.warning, env.now⟩ },
     [Event.fallback "Validation Error" "Please fix the validation errors",
      Event.banner validationBanner Sev.warning])

def updData (s : AppState) : UpdatedData :=
  ⟨jsTrim s.name, jsTrim s.email, jsTrim s.age, s.fcmToken⟩

/-- Payload of the remote-path UPDATE notification (App.tsx line 656):
`{...updatedData, id: editingUser.id, oldData: editingUser}`. -/
def updPayloadRemote (s : AppState) (eu : User) : CrudPayload :=
  { CrudPayload.base with
      name := some (jsTrim s.name), email := some (jsTrim s.email),
      age := some (jsTrim s.age), fcmToken := some s.fcmToken,
      id := some eu.id, oldData := some eu }

/-- Payload of the local-path UPDATE notification (App.tsx line 664): same
but without the prior record. -/
def updPayloadLocal (s : AppState) (eu : User) : CrudPayload :=
  { CrudPayload.base with
      name := some (jsTrim s.name), email := some (jsTrim s.email),
      age := some (jsTrim s.age), fcmToken := some s.fcmToken,
      id := some eu.id }

/-- `{...user, ...updatedData}` applied to the matching list entry (App.tsx
lines 659-661): the id and creation timestamp survive, the four updated
fields are replaced. -/
def applyUpd (ud : UpdatedData) (eu : User) (u : User) : User :=
  if u.id == eu.id then ⟨u.id, ud.name, ud.email, ud.age, u.createdAt, ud.fcmToken⟩
  else u

def bannerUpdMsg (nm : String) : String :=
  "📢 Notification: User \"" ++ nm ++ "\" information has been updated"

def updFailBanner : String := "❌ Failed to update user. Please try again."

/-- `updateUser` (App.tsx lines 633-684).  No edit target means an immediate
return.  In the remote path the handler never touches the visible list (the
snapshot listener owns it); a throwing patch leaves the edit state in place
and shows the error fallback and warning banner; the `finally` always clears
the submitting flag once validation has passed. -/
def updateUser (env : Env) (s : AppState) : AppState × List Event :=
  match s.editingUser with
  | none => (s, [])
  | some eu =>
    if (computeErrors s.name s.email s.age).isEmpty = true then
      if env.db = true then
        if env.writeOk = true then
          ({ s with
              editingUser := none
              name := ""
              email := ""
              age := ""
              errors := VErrors.empty
              feed := if s.users.length > 1 then
                  pushFeed s.feed ⟨env.noteId, bannerUpdMsg (jsTrim s.name), Sev.info, env.now⟩
                else s.feed
              submitting := false },
           Event.storeUpdate eu.id (updData s) ::
             notifyCRUDOperation env COp.update (updPayloadRemote s eu) false ++
             (if s.users.length > 1 then [Event.banner (bannerUpdMsg (jsTrim s.name)) Sev.info]
              else []))
        else
          ({ s with
              errors := computeErrors s.name s.email s.age
              feed := pushFeed s.feed ⟨env.noteId, updFailBanner, Sev.warning, env.now⟩
              submitting := false },
           [Event.fallback "Error" "Failed to update user. Please try again.",
            Event.banner updFailBanner Sev.warning])
      else
        ({ s with
            users := s.users.map (applyUpd (updData s) eu)
            editingUser := none
            name := ""
            email := ""
            age := ""
            errors := VErrors.empty
            feed := if s.users.length > 1 then
                pushFeed s.feed ⟨env.noteId, bannerUpdMsg (jsTrim s.name), Sev.info, env.now⟩
              else s.feed
            submitting := false },
         Event.uiUpdate (s.users.map (applyUpd (updData s) eu)) ::
           notifyCRUDOperation env COp.update (updPayloadLocal s eu) true ++
           (if s.users.length > 1 then [Event.banner (bannerUpdMsg (jsTrim s.name)) Sev.info]
            else []))
    else
      ({ s with
          errors := computeErrors s.name s.email s.age
          feed := pushFeed s.feed ⟨env.noteId, validationBanner, Sev.warning, env.now⟩ },
       [Event.fallback "Validation Error" "Please fix the validation errors",
        Event.banner validationBanner Sev.warning])

/-- The display name in the delete banner (App.tsx line 720): the name of
the found record when truthy, the literal text User otherwise. -/
def delBannerName (found : Option User) : String :=
  match found with
  | some u => if u.name == "" then "User" else u.name
  | none => "User"

def delBannerMsg (found : Option User) : String :=
  "📢 Notification: User \"" ++ delBannerName found ++ "\" has been removed from the system"

/-- Payload of the DELETE notification (App.tsx lines 706, 714):
`{id: userId, deletedUser: userToDelete}`. -/
def delPayload (userId : String) (u : User) : CrudPayload :=
  { CrudPayload.base with id := some userId, deletedUser := some u }

def delFailBanner : String := "❌ Failed to delete user. Please try again."

/-- `deleteUser` (App.tsx lines 687-731).  Cancelling the confirmation modal
does nothing at all.  On confirmation: the remote delete is issued for the
requested id whether or not the record is found in the visible list, while
the DELETE notification is sent only when it is found, carrying the prior
snapshot; in the local path the list is filtered.  A throwing remote delete
shows the error fallback and warning banner. -/
def deleteUser (env : Env) (s : AppState) (userId : String) (confirm : Bool) :
    AppState × List Event :=
  if confirm = false then (s, [])
  else
    if env.db = true then
      if env.writeOk = true then
        ({ s with
            feed := if s.users.length > 1 then
                pushFeed s.feed
                  ⟨env.noteId, delBannerMsg (s.users.find? (fun u => u.id == userId)),
                   Sev.info, env.now⟩
              else s.feed },
         Event.storeDelete userId ::
           (match s.users.find? (fun u => u.id == userId) with
            | some u => notifyCRUDOperation env COp.delete (delPayload userId u) false
            | none => []) ++
           (if s.users.length > 1 then
              [Event.banner (delBannerMsg (s.users.find? (fun u => u.id == userId))) Sev.info]
            else []))
      else
        ({ s with
            feed := pushFeed s.feed ⟨env.noteId, delFailBanner, Sev.warning, env.now⟩ },
         [Event.fallback "Error" "Failed to delete user. Please try again.",
          Event.banner delFailBanner Sev.warning])
    else
      ({ s with
          users := s.users.filter (fun u => u.id != userId)
          feed := if s.users.length > 1 then
              pushFeed s.feed
                ⟨env.noteId, delBannerMsg (s.users.find? (fun u => u.id == userId)),
                 Sev.info, env.now⟩
            else s.feed },
       Event.uiUpdate (s.users.filter (fun u => u.id != userId)) ::
         (match s.users.find? (fun u => u.id == userId) with
          | some u => notifyCRUDOperation env COp.delete (delPayload userId u) true
          | none => []) ++
         (if s.users.length > 1 then
            [Event.banner (delBannerMsg (s.users.find? (fun u => u.id == userId))) Sev.info]
          else []))

lemma banner_not_mem_notify (env : Env) (op : COp) (p : CrudPayload) (loc : Bool)
    (m : String) (sev : Sev) :
    Event.banner m sev ∉ notifyCRUDOperation env op p loc := by
  intro h
  simp [mem_notifyCRUDOperation_iff] at h

lemma uiUpdate_not_mem_notify (env : Env) (op : COp) (p : CrudPayload) (loc : Bool)
    (us : List User) :
    Event.uiUpdate us ∉ notifyCRUDOperation env op p loc := by
  intro h
  simp [mem_notifyCRUDOperation_iff] at h

/-! ## Claim C3 -/

/-- Claim C3: whenever `addUser` succeeds (validation passes and, in the
remote path, the write does not throw), the visible list grows by exactly
one, the newly constructed record is its first element, the three form
fields and the error set are cleared, and an info banner is pushed to the
in-app feed exactly when the list was non-empty before the insertion. -/
theorem addUser_success (env : Env) (s : AppState)
    (hv : (computeErrors s.name s.email s.age).isEmpty = true)
    (hw : env.db = true → env.writeOk = true) :
    (addUser env s).1.users.length = s.users.length + 1 ∧
    (addUser env s).1.users = newUserOf env s :: s.users ∧
    (addUser env s).1.name = "" ∧
    (addUser env s).1.email = "" ∧
    (addUser env s).1.age = "" ∧
    (addUser env s).1.errors = VErrors.empty ∧
    ((∃ m, Event.banner m Sev.info ∈ (addUser env s).2) ↔ s.users ≠ []) := by
  cases hdb : env.db with
  | true =>
    have hwo := hw hdb
    cases hu : s.users with
    | nil =>
      simp [addUser, hv, hdb, hwo, hu, banner_not_mem_notify]
    | cons u us =>
      refine ⟨by simp [addUser, hv, hdb, hwo, hu], by simp [addUser, hv, hdb, hwo, hu],
        by simp [addUser, hv, hdb, hwo], by simp [addUser, hv, hdb, hwo],
        by simp [addUser, hv, hdb, hwo], by simp [addUser, hv, hdb, hwo], ?_⟩
      constructor
      · intro _; simp [hu]
      · intro _
        exact ⟨bannerAddMsg (jsTrim s.name), by simp [addUser, hv, hdb, hwo, hu]⟩
  | false =>
    cases hu : s.users with
    | nil =>
      simp [addUser, hv, hdb, hu, banner_not_mem_notify]
    | cons u us =>
      refine ⟨by simp [addUser, hv, hdb, hu], by simp [addUser, hv, hdb, hu],
        by simp [addUser, hv, hdb], by simp [addUser, hv, hdb],
        by simp [addUser, hv, hdb], by simp [addUser, hv, hdb], ?_⟩
      constructor
      · intro _; simp [hu]
      · intro _
        exact ⟨bannerAddMsg (jsTrim s.name), by simp [addUser, hv, hdb, hu]⟩

/-! ## Claim C4 -/

/-- Claim C4: when `updateUser` runs against the remote store and the patch
throws, the visible list is left exactly as it was (the remote path never
touches it from the handler), the error fallback notification and a warning
banner are emitted, and the submitting flag is cleared on exit whether the
write succeeds or fails. -/
theorem updateUser_remoteFail (env : Env) (s : AppState) (eu : User)
    (he : s.editingUser = some eu)
    (hv : (computeErrors s.name s.email s.age).isEmpty = true)
    (hdb : env.db = true) :
    (env.writeOk = false →
      (updateUser env s).1.users = s.users ∧
      Event.fallback "Error" "Failed to update user. Please try again." ∈ (updateUser env s).2 ∧
      (∃ m, Event.banner m Sev.warning ∈ (updateUser env s).2)) ∧
    (updateUser env s).1.submitting = false := by
  cases hwo : env.writeOk with
  | false =>
    refine ⟨fun _ => ⟨?_, ?_, ⟨updFailBanner, ?_⟩⟩, ?_⟩ <;>
      simp [updateUser, he, hv, hdb, hwo]
  | true =>
    refine ⟨fun hcontra => ?_, ?_⟩
    · simp [hwo] at hcontra
    · simp [updateUser, he, hv, hdb, hwo]

/-! ## Claim C5 -/

/-- Claim C5: for a CRUD mutation against the remote store that returns
successfully, the local-notification attempt (and, when messaging is
available, the push and email dispatch attempts) appear in the handler trace
strictly after the store mutation and strictly before the visible-list
update; for `updateUser` the handler performs no list update at all (the
snapshot listener owns the list, so it can only change after the handler,
hence after the notification attempts).  The environment, including the flag
that makes the platform display call fail, is universally quantified and the
resulting list is pinned independently of it: a failure inside any
notification attempt neither rolls back nor blocks the completed mutation,
and the notification functions are total, so no notification failure can
escape into the handler. -/
theorem crud_notify_before_ui (env : Env) (s : AppState) (eu : User)
    (hdb : env.db = true) (hwo : env.writeOk = true)
    (hv : (computeErrors s.name s.email s.age).isEmpty = true)
    (he : s.editingUser = some eu) :
    ((addUser env s).1.users = newUserOf env s :: s.users ∧
      ∃ pre post,
        (addUser env s).2 =
          Event.storeAdd (newUserOf env s) ::
            pre ++ Event.uiUpdate (newUserOf env s :: s.users) :: post ∧
        Event.localAttempt (sysTitle COp.create) (sysMsg COp.create (addPayloadRemote env s)) ∈ pre ∧
        (env.svc.messagingAvailable = true →
          Event.pushAttempt COp.create (addPayloadRemote env s) ∈ pre ∧
          Event.emailAttempt COp.create (addPayloadRemote env s) ∈ pre)) ∧
    ((updateUser env s).1.users = s.users ∧
      ∃ tr,
        (updateUser env s).2 = Event.storeUpdate eu.id (updData s) :: tr ∧
        Event.localAttempt (sysTitle COp.update) (sysMsg COp.update (updPayloadRemote s eu)) ∈ tr ∧
        (env.svc.messagingAvailable = true →
          Event.pushAttempt COp.update (updPayloadRemote s eu) ∈ tr ∧
          Event.emailAttempt COp.update (updPayloadRemote s eu) ∈ tr) ∧
        ∀ us, Event.uiUpdate us ∉ (updateUser env s).2) := by
  constructor
  · constructor
    · simp [addUser, hv, hdb, hwo]
    · refine ⟨notifyCRUDOperation env COp.create (addPayloadRemote env s) false,
        (if s.users.length > 0 then [Event.banner (bannerAddMsg (jsTrim s.name)) Sev.info]
         else []), ?_, ?_, ?_⟩
      · simp [addUser, hv, hdb, hwo]
      · simp [mem_notifyCRUDOperation_iff]
      · intro hm
        exact ⟨by simp [mem_notifyCRUDOperation_iff, hm], by simp [mem_notifyCRUDOperation_iff, hm]⟩
  · constructor
    · simp [updateUser, he, hv, hdb, hwo]
    · refine ⟨notifyCRUDOperation env COp.update (updPayloadRemote s eu) false ++
        (if s.users.length > 1 then [Event.banner (bannerUpdMsg (jsTrim s.name)) Sev.info]
         else []), ?_, ?_, ?_, ?_⟩
      · simp [updateUser, he, hv, hdb, hwo]
      · simp [mem_notifyCRUDOperation_iff]
      · intro hm
        exact ⟨by simp [mem_notifyCRUDOperation_iff, hm], by simp [mem_notifyCRUDOperation_iff, hm]⟩
      · intro us h
        simp [updateUser, he, hv, hdb, hwo, List.mem_cons, List.mem_append,
          uiUpdate_not_mem_notify] at h

/-! ## Claim C6 -/

/-- Claim C6: `deleteUser` mutates nothing before the confirmation (the
Cancel branch returns the state untouched with an empty trace); on
confirmation with the remote store, the delete is issued for the requested
id even when the record is not in the visible list (in which case the
notification step is skipped entirely), and when the record is found the
DELETE notification is invoked with the prior snapshot of the removed
record; in the local path the record is removed by filtering the list. -/
theorem deleteUser_spec (env : Env) (s : AppState) (userId : String) :
    deleteUser env s userId false = (s, []) ∧
    (env.db = true → env.writeOk = true →
      Event.storeDelete userId ∈ (deleteUser env s userId true).2 ∧
      (s.users.find? (fun u => u.id == userId) = none →
        ∀ op p loc, Event.notifyInvoked op p loc ∉ (deleteUser env s userId true).2) ∧
      (∀ u, s.users.find? (fun u => u.id == userId) = some u →
        Event.notifyInvoked COp.delete (delPayload userId u) false ∈
          (deleteUser env s userId true).2)) ∧
    (env.db = false →
      (deleteUser env s userId true).1.users = s.users.filter (fun u => u.id != userId)) := by
  refine ⟨by simp [deleteUser], fun hdb hwo => ⟨?_, ?_, ?_⟩, fun hdb => ?_⟩
  · simp [deleteUser, hdb, hwo]
  · intro hf op p loc h
    simp [deleteUser, hdb, hwo, hf] at h
  · intro u hf
    simp [deleteUser, hdb, hwo, hf, mem_notifyCRUDOperation_iff]
  · simp [deleteUser, hdb]

/-! ## Concrete fixtures for the witnesses -/

def euW : User := ⟨"u1", "Bob", "bob@x.com", "30", Timestamp.client 0, ""⟩

def sW : AppState :=
  ⟨[euW], "Ada Lovelace", "ada@x.com", "36", some euW, VErrors.empty, [], false, "tok"⟩

def svcW : SvcState := ⟨true, true⟩

def envW : Env := ⟨true, true, svcW, false, true, "doc1", "loc1", "note1", 5⟩

def envW4 : Env := ⟨true, true, svcW, false, false, "doc1", "loc1", "note1", 5⟩

/-- Witness for claim C3: on the concrete valid form
`{Ada Lovelace, ada@x.com, 36}` with the store available and the write
succeeding, the theorem applies and the list grows by one. -/
theorem addUser_success_witness :
    (computeErrors sW.name sW.email sW.age).isEmpty = true ∧
    (addUser envW sW).1.users.length = sW.users.length + 1 := by
  refine ⟨by decide, ?_⟩
  exact (addUser_success envW sW (by decide) (fun _ => rfl)).1

/-- Witness for claim C4: with the remote patch failing on the concrete
state, the list is unchanged and submitting is cleared. -/
theorem updateUser_remoteFail_witness :
    sW.editingUser = some euW ∧
    (updateUser envW4 sW).1.users = sW.users ∧
    (updateUser envW4 sW).1.submitting = false := by
  have h := updateUser_remoteFail envW4 sW euW rfl (by decide) rfl
  exact ⟨rfl, (h.1 rfl).1, h.2⟩

/-- Witness for claim C5: the ordering theorem applies to the concrete
environment and state, and pins the resulting lists. -/
theorem crud_notify_before_ui_witness :
    (addUser envW sW).1.users = newUserOf envW sW :: sW.users ∧
    (updateUser envW sW).1.users = sW.users := by
  have h := crud_notify_before_ui envW sW euW rfl rfl (by decide) rfl
  exact ⟨h.1.1, h.2.1⟩

/-- Witness for claim C6: on the concrete state, cancelling is a no-op and
confirming issues the remote delete. -/
theorem deleteUser_spec_witness :
    deleteUser envW sW "u1" false = (sW, []) ∧
    Event.storeDelete "u1" ∈ (deleteUser envW sW "u1" true).2 := by
  have h := deleteUser_spec envW sW "u1"
  exact ⟨h.1, (h.2.1 rfl rfl).1⟩

/-! ## Serverless push broadcast (functions/src/index.ts lines 19-88) -/

/-- A document of the `users` collection as the handler reads it; fields it
dereferences are optional because the stored object may omit them. -/
structure UserDoc where
  fcmToken : Option String
  email : Option String
  name : Option String
  age : Option String
deriving DecidableEq, Repr

/-- The result object of the callable (`{success, successCount?,
failureCount?, message?}`). -/
structure CallResult where
  success : Bool
  successCount : Option Nat
  failureCount : Option Nat
  message : Option String
deriving DecidableEq, Repr

/-- Token collection (index.ts lines 27-32): keep a token when it is truthy
(present and non-empty) and differs from the sender token under strict
inequality, where an absent sender token differs from every string. -/
def collectTokens (docs : List UserDoc) (senderToken : Option String) : List String :=
  docs.filterMap (fun d =>
    match d.fcmToken with
    | some t => if t ≠ "" ∧ some t ≠ senderToken then some t else none
    | none => none)

/-- Notification title and body per action tag (index.ts lines 42-58).  The
DELETE branch dereferences `userData.deletedUser.name`, which throws when the
payload carries no prior snapshot; that throw is modelled as an error. -/
def buildPushMessage (action : String) (p : CrudPayload) :
    Except Unit (String × String) :=
  if action = "CREATE" then
    Except.ok ("New User Added", jsField p.name ++ " has been added to the system")
  else if action = "UPDATE" then
    Except.ok ("User Updated", jsField p.name ++ "\x27s information has been updated")
  else if action = "DELETE" then
    match p.deletedUser with
    | some u => Except.ok ("User Deleted", u.name ++ " has been removed from the system")
    | none => Except.error ()
  else
    Except.ok ("System Update", "A change has been made to the user database")

/-- `sendNotificationToAllUsers` (index.ts lines 19-88).  The two external
effects are parameters: `readUsers` is the outcome of reading the `users`
collection, `multicast` the outcome of the single multicast send on a given
token list (success and failure counts on success).  The whole body sits in
one try/catch whose catch rethrows an internal error, so every throw inside
the body, not only one from the read step, fails the call. -/
def sendNotificationToAllUsers
    (readUsers : Except Unit (List UserDoc))
    (multicast : List String → Except Unit (Nat × Nat))
    (action : String) (userData : CrudPayload) (senderToken : Option String) :
    Except Unit CallResult :=
  match readUsers with
  | .error e => .error e
  | .ok docs =>
    if (collectTokens docs senderToken).isEmpty = true then
      .ok ⟨false, none, none, some "No users to notify"⟩
    else
      match buildPushMessage action userData with
      | .error e => .error e
      | .ok _ =>
        match multicast (collectTokens docs senderToken) with
        | .error e => .error e
        | .ok (sc, fc) => .ok ⟨true, some sc, some fc, none⟩

/-! ## Claim C8 -/

/-- Claim C8 counterexample: the token read succeeds and yields one
recipient, yet the call as a whole fails, because the multicast send throws
and the surrounding catch rethrows.  This refutes the clause that the whole
call fails only if the token read step throws. -/
theorem sendNotificationToAllUsers_cex :
    sendNotificationToAllUsers (Except.ok [⟨some "tok", none, none, none⟩])
      (fun _ => Except.error ()) "CREATE" CrudPayload.base none = Except.error () := by
  rfl

/-- Claim C8 (amended): the handler collects the messaging tokens of all
user records, excluding empty tokens and the sender token; with no
recipients it returns a failure result carrying a message instead of
sending; otherwise it sends one multicast and returns the success and
failure counts; and the whole call raises an error exactly when the token
read step throws, or when recipients exist and either the DELETE
message-build step dereferences a missing snapshot or the multicast send
throws (the single surrounding catch rethrows every one of these). -/
theorem sendNotificationToAllUsers_spec
    (docs : List UserDoc) (multicast : List String → Except Unit (Nat × Nat))
    (action : String) (p : CrudPayload) (sender : Option String) :
    (sendNotificationToAllUsers (Except.error ()) multicast action p sender =
      Except.error ()) ∧
    (∀ t, t ∈ collectTokens docs sender ↔
      ∃ d, d ∈ docs ∧ d.fcmToken = some t ∧ t ≠ "" ∧ some t ≠ sender) ∧
    (collectTokens docs sender = [] →
      sendNotificationToAllUsers (Except.ok docs) multicast action p sender =
        Except.ok ⟨false, none, none, some "No users to notify"⟩) ∧
    (∀ sc fc tb, collectTokens docs sender ≠ [] →
      buildPushMessage action p = Except.ok tb →
      multicast (collectTokens docs sender) = Except.ok (sc, fc) →
      sendNotificationToAllUsers (Except.ok docs) multicast action p sender =
        Except.ok ⟨true, some sc, some fc, none⟩) ∧
    (sendNotificationToAllUsers (Except.ok docs) multicast action p sender =
        Except.error () ↔
      (collectTokens docs sender ≠ [] ∧
        (buildPushMessage action p = Except.error () ∨
         multicast (collectTokens docs sender) = Except.error ()))) := by
  refine ⟨rfl, ?_, ?_, ?_, ?_⟩
  · intro t
    simp only [collectTokens, List.mem_filterMap]
    constructor
    · rintro ⟨d, hd, hf⟩
      refine ⟨d, hd, ?_⟩
      cases hdt : d.fcmToken with
      | none => rw [hdt] at hf; simp at hf
      | some t0 =>
        rw [hdt] at hf
        have hf2 : (if t0 ≠ "" ∧ some t0 ≠ sender then some t0 else none) = some t := hf
        by_cases hc : t0 ≠ "" ∧ some t0 ≠ sender
        · rw [if_pos hc] at hf2
          obtain rfl := Option.some.inj hf2
          exact ⟨rfl, hc.1, hc.2⟩
        · rw [if_neg hc] at hf2
          cases hf2
    · rintro ⟨d, hd, h1, h2, h3⟩
      exact ⟨d, hd, by rw [h1]; exact if_pos ⟨h2, h3⟩⟩
  · intro h
    simp [sendNotificationToAllUsers, h]
  · intro sc fc tb hne hb hm
    have hni : (collectTokens docs sender).isEmpty = false := by
      cases hcase : collectTokens docs sender with
      | nil => exact absurd hcase hne
      | cons x xs => simp
    simp [sendNotificationToAllUsers, hni, hb, hm]
  · by_cases hne : collectTokens docs sender = []
    · simp [sendNotificationToAllUsers, hne]
    · have hni : (collectTokens docs sender).isEmpty = false := by
        cases hcase : collectTokens docs sender with
        | nil => exact absurd hcase hne
        | cons x xs => simp
      cases hb : buildPushMessage action p with
      | error e =>
        cases e
        simp [sendNotificationToAllUsers, hni, hb, hne]
      | ok tb =>
        cases hm : multicast (collectTokens docs sender) with
        | error e =>
          cases e
          simp [sendNotificationToAllUsers, hni, hb, hm, hne]
        | ok scfc =>
          cases scfc with
          | mk sc fc => simp [sendNotificationToAllUsers, hni, hb, hm, hne]

/-- Witness for claim C8: on a concrete single-token read with a succeeding
multicast, the amended theorem applies and yields the success result with
the counts. -/
theorem sendNotificationToAllUsers_spec_witness :
    sendNotificationToAllUsers (Except.ok [⟨some "tok", none, none, none⟩])
      (fun _ => Except.ok (1, 0)) "CREATE" CrudPayload.base none =
      Except.ok ⟨true, some 1, some 0, none⟩ := by
  exact (sendNotificationToAllUsers_spec [⟨some "tok", none, none, none⟩]
    (fun _ => Except.ok (1, 0)) "CREATE" CrudPayload.base none).2.2.2.1 1 0
    ("New User Added", "undefined has been added to the system")
    (by decide) (by rfl) (by rfl)

end CrudDemo
